import Mathlib

/-!
# Golf Handicap Tracker (GHTP) — verification of the core computation engine

Shallow embedding of the core logic of `src/V021/script.js` (the maintained
variant, cross-checked against `src/unnamed/part_000`):

* `validateInputs` / `addRound` — input validation, 9-hole adjustment and the
  differential formula (script.js lines 92-221);
* `calculateHandicap` — eligibility filter, sort by differential, best-k
  selection and the 0.96 factor (script.js lines 335-373);
* `updateAllCoursesStats` — the statistics aggregator (`computeStats` here,
  script.js lines 566-597);
* `loadRoundsFromSheet` — the decode step from stored text records
  (`convertRound` here, script.js lines 273-289).

Numbers are embedded as `ℤ`/`ℚ` (the JavaScript values in play are small
integers and short decimals, far below any double-precision rounding);
JavaScript `toFixed(2)` is `round2`; a date is embedded as the integer
timestamp `new Date(d).getTime()` that the source compares when ordering by
date, with the falsy empty form value as 0.
-/

/-- A stored round, as built by `addRound` in `src/V021/script.js`
(lines 191-205): the fields of the JavaScript `round` object.  `adjPar` is a
local of `addRound` and is *not* stored, matching the source. -/
structure Round where
  id : String
  date : ℤ
  course : String
  tees : String
  courseType : String
  includeInHandicap : Bool
  holes : ℤ
  score : ℤ
  par : ℤ
  adjScore : ℤ
  rating : ℚ
  slope : ℤ
  differential : ℚ
deriving Repr, DecidableEq

/-- The raw values read from the form by `validateInputs`
(script.js lines 92-101) after the `parseInt`/`parseFloat` conversions. -/
structure RoundInputs where
  date : ℤ
  course : String
  tees : String
  holes : ℤ
  score : ℤ
  par : ℤ
  rating : ℚ
  slope : ℤ
  courseType : String
deriving Repr, DecidableEq

/-- Rounding to 2 decimal places: `parseFloat(differential.toFixed(2))`
(script.js line 204). -/
def round2 (q : ℚ) : ℚ := (round (q * 100) : ℤ) / 100

/-- `validateInputs` (script.js lines 92-132).  The first guard is the
JavaScript truthiness check `!date || !course || ... || !slope || !courseType`:
an empty string or the number 0 is falsy.  Each subsequent range check throws
the corresponding `Error`, embedded as `Except.error`. -/
def validateInputs (inp : RoundInputs) : Except String RoundInputs :=
  if inp.date = 0 ∨ inp.course = "" ∨ inp.tees = "" ∨ inp.holes = 0 ∨
      inp.score = 0 ∨ inp.par = 0 ∨ inp.rating = 0 ∨ inp.slope = 0 ∨
      inp.courseType = "" then
    .error "Please fill in all fields"
  else if inp.course.length < 2 then
    .error "Course name must be at least 2 characters"
  else if inp.tees.length < 1 then
    .error "Tees played must be specified"
  else if ¬(inp.holes = 9 ∨ inp.holes = 18) then
    .error "Holes must be 9 or 18"
  else if inp.score ≤ 0 ∨ inp.score > 200 then
    .error "Score must be between 1 and 200"
  else if inp.par ≤ 0 ∨ inp.par > 100 then
    .error "Par must be between 1 and 100"
  else if inp.rating ≤ 0 ∨ inp.rating > 150 then
    .error "Course rating must be between 1 and 150"
  else if inp.slope < 55 ∨ inp.slope > 155 then
    .error "Slope rating must be between 55 and 155"
  else
    .ok inp

/-- The 9-hole score adjustment of `addRound` (script.js lines 179-185):
`adjScore = score; if (holes === 9) adjScore = score * 2`. -/
def adjustScore (holes score : ℤ) : ℤ := if holes = 9 then score * 2 else score

/-- The 9-hole par adjustment of `addRound` (script.js lines 180-185):
`adjPar` is computed exactly like `adjScore` but never stored. -/
def adjustPar (holes par : ℤ) : ℤ := if holes = 9 then par * 2 else par

/-- The round object built by `addRound` from validated inputs
(script.js lines 187-205): the differential is
`((adjScore - rating) * 113) / slope`, stored rounded to 2 decimals;
`rating` and `slope` are stored as entered, never doubled. -/
def mkRound (id : String) (inp : RoundInputs) (includeInHandicap : Bool) :
    Round :=
  let adjScore := adjustScore inp.holes inp.score
  let differential := ((adjScore - inp.rating) * 113) / inp.slope
  { id := id
    date := inp.date
    course := inp.course
    tees := inp.tees
    courseType := inp.courseType
    includeInHandicap := includeInHandicap
    holes := inp.holes
    score := inp.score
    par := inp.par
    adjScore := adjScore
    rating := inp.rating
    slope := inp.slope
    differential := round2 differential }

/-- The computational path of `addRound` (script.js lines 168-221):
validation first (a thrown `Error` is `Except.error`), then the round is
built.  The persistence call and DOM updates are I/O, outside the core. -/
def addRound (inp : RoundInputs) (includeInHandicap : Bool) (id : String) :
    Except String Round :=
  match validateInputs inp with
  | .error e => .error e
  | .ok v => .ok (mkRound id v includeInHandicap)

/-- The comparator of `calculateHandicap`'s sort
(`(a, b) => a.differential - b.differential`, script.js line 349). -/
def diffLE (a b : Round) : Prop := a.differential ≤ b.differential

instance : DecidableRel diffLE := fun a b =>
  inferInstanceAs (Decidable (a.differential ≤ b.differential))

instance : IsTotal Round diffLE := ⟨fun a b => le_total a.differential b.differential⟩

instance : IsTrans Round diffLE := ⟨fun _ _ _ hab hbc => le_trans hab hbc⟩

/-- The eligibility filter of `calculateHandicap` (script.js lines 338-344):
keep rounds with `includeInHandicap`, and additionally require
`courseType === 'regulation'` when `regulationOnly`. -/
def eligibleRounds (rounds : List Round) (regulationOnly : Bool) :
    List Round :=
  let handicapRounds := rounds.filter (fun r => r.includeInHandicap)
  if regulationOnly then
    handicapRounds.filter (fun r => r.courseType = "regulation")
  else handicapRounds

/-- The best-k selection count of `calculateHandicap`
(script.js lines 352-361).  `Math.floor(n * 0.4)` and `Math.floor(n * 0.3)`
are exact natural divisions for every `n` in their branches (checked against
IEEE doubles for 10 ≤ n ≤ 19 and 5 ≤ n ≤ 9). -/
def roundsToUse (n : ℕ) : ℕ :=
  if n ≥ 20 then 8
  else if n ≥ 10 then n * 4 / 10
  else if n ≥ 5 then n * 3 / 10
  else min 1 n

/-- The result object of `calculateHandicap` (script.js lines 368-372). -/
structure HandicapResult where
  handicap : ℚ
  roundsUsed : ℕ
  totalHandicapRounds : ℕ
deriving Repr, DecidableEq

/-- `calculateHandicap` (script.js lines 335-373) as a pure function of the
round list it reads: filter eligibility, sort a copy by differential
ascending, average the best `roundsToUse` differentials, multiply by 0.96. -/
def calculateHandicap (rounds : List Round) (regulationOnly : Bool) :
    Option HandicapResult :=
  if rounds.length = 0 then none
  else
    let handicapRounds := eligibleRounds rounds regulationOnly
    if handicapRounds.length = 0 then none
    else
      let sortedRounds := handicapRounds.insertionSort diffLE
      let k := roundsToUse handicapRounds.length
      let bestDifferentials := sortedRounds.take k
      let avgDifferential :=
        (bestDifferentials.map Round.differential).sum / (k : ℚ)
      some ⟨avgDifferential * (96 / 100), k, handicapRounds.length⟩

/-- The statistics block of `updateAllCoursesStats` (script.js lines 566-597):
`total`, average and best 18-hole-equivalent score, and the recent trend.
The `'--'` placeholder written to the DOM is `none`. -/
structure Stats where
  total : ℕ
  avg : Option ℚ
  best : Option ℤ
  trend : Option ℚ
deriving Repr, DecidableEq

/-- `updateAllCoursesStats` (script.js lines 566-597) as a function of the
global `rounds` array *in its stored order*: the trend compares
`includedRounds.slice(0, 5)` with `includedRounds.slice(5, 10)` of that order
— the function itself performs no sorting by date. -/
def computeStats (rounds : List Round) : Stats :=
  let includedRounds := rounds.filter (fun r => r.includeInHandicap)
  if includedRounds.length > 0 then
    let avgScoreValue :=
      (includedRounds.map (fun r => (r.adjScore : ℚ))).sum /
        (includedRounds.length : ℚ)
    let bestScoreValue := (includedRounds.map Round.adjScore).min?
    let trend :=
      if includedRounds.length ≥ 10 then
        let recent5 := includedRounds.take 5
        let previous5 := (includedRounds.drop 5).take 5
        let recentAvg := (recent5.map (fun r => (r.adjScore : ℚ))).sum / 5
        let previousAvg := (previous5.map (fun r => (r.adjScore : ℚ))).sum / 5
        some (recentAvg - previousAvg)
      else none
    { total := includedRounds.length
      avg := some avgScoreValue
      best := bestScoreValue
      trend := trend }
  else
    { total := includedRounds.length, avg := none, best := none, trend := none }

/-- Newest-first date order: the comparator
`(a, b) => new Date(b.date) - new Date(a.date)` on the embedded
timestamps. -/
def dateGE (a b : Round) : Prop := b.date ≤ a.date

instance : DecidableRel dateGE := fun a b =>
  inferInstanceAs (Decidable (b.date ≤ a.date))

/-- The trend as §4.3 of the spec words it, for comparison with the code:
order the filtered rounds newest-first by date *first*, then compare the mean
`adjScore` of the first five against that of the next five. -/
def trendSpec (rounds : List Round) : Option ℚ :=
  let includedRounds := rounds.filter (fun r => r.includeInHandicap)
  let ordered := includedRounds.insertionSort dateGE
  if ordered.length ≥ 10 then
    let recent5 := ordered.take 5
    let previous5 := (ordered.drop 5).take 5
    some ((recent5.map (fun r => (r.adjScore : ℚ))).sum / 5 -
      (previous5.map (fun r => (r.adjScore : ℚ))).sum / 5)
  else none

/-- A record as it comes back from the sheet before conversion
(`loadRoundsFromSheet`, script.js lines 273-289).  The spreadsheet returns
text; `Option` is the result of the JavaScript parse-and-default idiom: for a
numeric field, `none` means `parseInt`/`parseFloat` produced `NaN` (field
missing or unparseable) so that `|| 0` fires; for `tees` and `courseType`,
`none` means the field is absent (falsy), `some ""` present but empty (also
falsy); `includeInHandicap` is the raw stored string, absent when `none`. -/
structure SheetRound where
  id : String
  date : ℤ
  course : String
  tees : Option String
  courseType : Option String
  includeInHandicap : Option String
  holes : Option ℤ
  score : Option ℤ
  par : Option ℤ
  adjScore : Option ℤ
  rating : Option ℚ
  slope : Option ℤ
  differential : Option ℚ
deriving Repr, DecidableEq

/-- The per-record conversion inside `loadRoundsFromSheet`
(script.js lines 273-289): every numeric field falls back to 0
(`parseInt(round.holes) || 0`, ...), `courseType` falls back to
`'regulation'` when falsy, `includeInHandicap` is `false` exactly when the
stored string is `'false'`, and `tees` falls back to `''`.  The conversion is
total: no branch signals an error. -/
def convertRound (s : SheetRound) : Round :=
  { id := s.id
    date := s.date
    course := s.course
    tees := s.tees.getD ""
    courseType :=
      match s.courseType with
      | none => "regulation"
      | some c => if c = "" then "regulation" else c
    includeInHandicap := if s.includeInHandicap = some "false" then false else true
    holes := (s.holes.getD 0)
    score := (s.score.getD 0)
    par := (s.par.getD 0)
    adjScore := (s.adjScore.getD 0)
    rating := (s.rating.getD 0)
    slope := (s.slope.getD 0)
    differential := (s.differential.getD 0) }

/-- A heap of JavaScript arrays of rounds, for the aliasing behaviour of
`calculateHandicap`: cell 0 usually holds the global `rounds` array;
`filter` and the spread `[...handicapRounds]` allocate fresh cells, while
`Array.prototype.sort` mutates the cell it is called on. -/
abbrev Heap := List (List Round)

/-- Allocate a fresh array on the heap, returning its reference. -/
def allocA (h : Heap) (l : List Round) : Heap × ℕ := (h ++ [l], h.length)

/-- Read the array a reference points to. -/
def readA (h : Heap) (r : ℕ) : List Round := (h.get? r).getD []

/-- Overwrite the array a reference points to (in-place mutation). -/
def writeA (h : Heap) (r : ℕ) (l : List Round) : Heap := h.set r l

/-- `calculateHandicap` (script.js lines 335-373) with the array operations
made explicit on the heap: `rounds.filter(...)` allocates a new array
(twice when `regulationOnly`), the spread `[...handicapRounds]` allocates a
copy, and `.sort(...)` mutates *that copy's* cell in place.  No write ever
targets `roundsRef`, the global `rounds` array. -/
def calculateHandicapRef (h : Heap) (roundsRef : ℕ) (regulationOnly : Bool) :
    Option HandicapResult × Heap :=
  let rounds := readA h roundsRef
  if rounds.length = 0 then (none, h)
  else
    let (h₁, incRef) := allocA h (rounds.filter (fun r => r.includeInHandicap))
    let (h₂, hrRef) :=
      if regulationOnly then
        allocA h₁ ((readA h₁ incRef).filter (fun r => r.courseType = "regulation"))
      else (h₁, incRef)
    let handicapRounds := readA h₂ hrRef
    if handicapRounds.length = 0 then (none, h₂)
    else
      let (h₃, copyRef) := allocA h₂ handicapRounds
      let h₄ := writeA h₃ copyRef ((readA h₃ copyRef).insertionSort diffLE)
      let sortedRounds := readA h₄ copyRef
      let k := roundsToUse handicapRounds.length
      let bestDifferentials := sortedRounds.take k
      (some ⟨(bestDifferentials.map Round.differential).sum / (k : ℚ) * (96 / 100),
        k, handicapRounds.length⟩, h₄)

/-- A typical 18-hole round used to exercise the definitions on concrete
input: the §8 scenario `score=90, par=72, rating=71.2, slope=125`. -/
def sampleInputs : RoundInputs :=
  { date := 20240601, course := "Pine Valley", tees := "Blue",
    holes := 18, score := 90, par := 72, rating := 356/5, slope := 125,
    courseType := "regulation" }

/-- The §8 9-hole scenario `score=48, par=36, rating=35.5, slope=115`. -/
def sampleNineInputs : RoundInputs :=
  { date := 20240602, course := "Short Nine", tees := "Red",
    holes := 9, score := 48, par := 36, rating := 71/2, slope := 115,
    courseType := "executive" }

/-- A form submission with `slope = 0` (its other fields well-formed). -/
def zeroSlopeInputs : RoundInputs :=
  { date := 20240603, course := "Pine Valley", tees := "Blue",
    holes := 18, score := 90, par := 72, rating := 356/5, slope := 0,
    courseType := "regulation" }

/-- A minimal concrete round for the handicap computations. -/
def sampleRound (d : ℤ) (a : ℤ) : Round :=
  { id := "", date := d, course := "CC", tees := "White",
    courseType := "regulation", includeInHandicap := true,
    holes := 18, score := a, par := 72, adjScore := a, rating := 70,
    slope := 113, differential := (a : ℚ) - 70 }

/-- Ten included rounds stored oldest-first (ascending dates), with
`adjScore` rising over time — the order `sortTable` leaves the global array
in after sorting by an ascending column. -/
def risingRounds : List Round :=
  [sampleRound 1 91, sampleRound 2 92,
   sampleRound 3 93, sampleRound 4 94,
   sampleRound 5 95, sampleRound 6 96,
   sampleRound 7 97, sampleRound 8 98,
   sampleRound 9 99, sampleRound 10 100]

/-- The same ten rounds stored newest-first, the order `loadRounds` and
`addRound` maintain. -/
def fallingRounds : List Round := risingRounds.reverse

/-- Twelve included regulation rounds, for the 10-19-round selection rule. -/
def twelveRounds : List Round :=
  [sampleRound 201 91, sampleRound 202 92,
   sampleRound 203 93, sampleRound 204 94,
   sampleRound 205 95, sampleRound 206 96,
   sampleRound 207 97, sampleRound 208 98,
   sampleRound 209 99, sampleRound 210 100,
   sampleRound 211 101, sampleRound 212 102]

/-- A round with differential 15, for concrete permutation checks. -/
def roundA : Round := sampleRound 301 85

/-- A round with differential 20, for concrete permutation checks. -/
def roundB : Round := sampleRound 302 90

/-- A sheet record whose numeric fields are all unparseable and whose
`courseType` is absent. -/
def blankSheetRound : SheetRound :=
  { id := "17", date := 20240601, course := "CC", tees := none,
    courseType := none, includeInHandicap := none, holes := none,
    score := none, par := none, adjScore := none, rating := none,
    slope := none, differential := none }

/-- `calculateHandicap` with the `let`-bindings unfolded, for proofs. -/
lemma calculateHandicap_eq (rounds : List Round) (ro : Bool) :
    calculateHandicap rounds ro =
      if rounds.length = 0 then none
      else if (eligibleRounds rounds ro).length = 0 then none
      else
        some ⟨((((eligibleRounds rounds ro).insertionSort diffLE).take
              (roundsToUse (eligibleRounds rounds ro).length)).map
              Round.differential).sum /
            ((roundsToUse (eligibleRounds rounds ro).length : ℕ) : ℚ) *
            (96 / 100),
          roundsToUse (eligibleRounds rounds ro).length,
          (eligibleRounds rounds ro).length⟩ := rfl

/-- `computeStats` with the `let`-bindings unfolded, for proofs. -/
lemma computeStats_eq (rounds : List Round) :
    computeStats rounds =
      if (rounds.filter (fun r => r.includeInHandicap)).length > 0 then
        { total := (rounds.filter (fun r => r.includeInHandicap)).length
          avg := some (((rounds.filter (fun r => r.includeInHandicap)).map
              (fun r => (r.adjScore : ℚ))).sum /
            (((rounds.filter (fun r => r.includeInHandicap)).length : ℕ) : ℚ))
          best := ((rounds.filter (fun r => r.includeInHandicap)).map
            Round.adjScore).min?
          trend :=
            if (rounds.filter (fun r => r.includeInHandicap)).length ≥ 10 then
              some ((((rounds.filter (fun r => r.includeInHandicap)).take 5).map
                  (fun r => (r.adjScore : ℚ))).sum / 5 -
                ((((rounds.filter (fun r => r.includeInHandicap)).drop 5).take 5).map
                  (fun r => (r.adjScore : ℚ))).sum / 5)
            else none }
      else
        { total := (rounds.filter (fun r => r.includeInHandicap)).length,
          avg := none, best := none, trend := none } := rfl

/-- C1: for a 9-hole round `addRound` doubles the score and par
(`adjScore = score*2`, `adjPar = par*2`) while storing `rating` and `slope`
undoubled; for an 18-hole round `adjScore = score` and `adjPar = par`; in
both cases the stored differential is `((adjScore - rating) * 113) / slope`
rounded to 2 decimal places. -/
theorem addRound_adjusts_and_differential (id : String) (inp : RoundInputs)
    (inc : Bool) :
    (inp.holes = 9 →
      (mkRound id inp inc).adjScore = inp.score * 2 ∧
      adjustPar inp.holes inp.par = inp.par * 2) ∧
    (inp.holes = 18 →
      (mkRound id inp inc).adjScore = inp.score ∧
      adjustPar inp.holes inp.par = inp.par) ∧
    (mkRound id inp inc).rating = inp.rating ∧
    (mkRound id inp inc).slope = inp.slope ∧
    (mkRound id inp inc).differential =
      round2 (((((mkRound id inp inc).adjScore : ℤ) : ℚ) - inp.rating) * 113 /
        (inp.slope : ℚ)) := by
  refine ⟨fun h9 => ?_, fun h18 => ?_, rfl, rfl, rfl⟩
  · simp [mkRound, adjustScore, adjustPar, h9]
  · simp [mkRound, adjustScore, adjustPar, h18]

/-- Witness for C1 at the spec's §8 9-hole scenario. -/
theorem addRound_adjusts_and_differential_witness :
    (mkRound "1" sampleNineInputs true).adjScore = sampleNineInputs.score * 2 ∧
    adjustPar sampleNineInputs.holes sampleNineInputs.par =
      sampleNineInputs.par * 2 :=
  (addRound_adjusts_and_differential "1" sampleNineInputs true).1 rfl

/-- C4: `calculateHandicap` returns `null` exactly when no round passes the
eligibility filter (`includeInHandicap`, plus `courseType === 'regulation'`
when `regulationOnly`); with at least one eligible round it returns a
result. -/
theorem calculateHandicap_none_iff (rounds : List Round) (ro : Bool) :
    calculateHandicap rounds ro = none ↔ eligibleRounds rounds ro = [] := by
  rw [calculateHandicap_eq]
  by_cases h0 : rounds.length = 0
  · have : rounds = [] := List.length_eq_zero.mp h0
    subst this
    simp [eligibleRounds]
  · by_cases he : (eligibleRounds rounds ro).length = 0
    · simp [h0, he, List.length_eq_zero.mp he]
    · simp only [h0, he, if_false, if_neg]
      constructor
      · intro h; cases h
      · intro h; exact absurd (by simp [h]) he

/-- C6: when the filtered set is empty (`total = 0`), `updateAllCoursesStats`
reports `avg`, `best` and `trend` all as the `'--'` sentinel, never a
number. -/
theorem stats_empty_all_unavailable (rounds : List Round)
    (h : (computeStats rounds).total = 0) :
    (computeStats rounds).avg = none ∧ (computeStats rounds).best = none ∧
      (computeStats rounds).trend = none := by
  rw [computeStats_eq] at h ⊢
  by_cases h0 : (rounds.filter (fun r => r.includeInHandicap)).length > 0
  · rw [if_pos h0] at h
    simp only at h
    omega
  · rw [if_neg h0]
    exact ⟨rfl, rfl, rfl⟩

/-- Witness for C6 on the empty round list. -/
theorem stats_empty_all_unavailable_witness :
    (computeStats []).avg = none ∧ (computeStats []).best = none ∧
      (computeStats []).trend = none :=
  stats_empty_all_unavailable [] rfl

/-- C7: a round input with `slope = 0` never reaches the differential
computation: `addRound` signals the thrown validation `Error` (the JavaScript
truthiness guard `!slope` fires), so no `Infinity`/`NaN` differential is ever
stored. -/
theorem addRound_zero_slope_errors (inp : RoundInputs) (inc : Bool)
    (id : String) (h : inp.slope = 0) :
    addRound inp inc id = .error "Please fill in all fields" := by
  simp [addRound, validateInputs, h]

/-- Witness for C7 at a concrete slope-0 submission. -/
theorem addRound_zero_slope_errors_witness :
    addRound zeroSlopeInputs true "1" = .error "Please fill in all fields" :=
  addRound_zero_slope_errors zeroSlopeInputs true "1" rfl

/-- C8: decoding a stored record, a missing `courseType` becomes
`'regulation'`, and `includeInHandicap` decodes to `false` exactly when the
stored string is `'false'` (anything else, including absence, gives
`true`). -/
theorem convertRound_defaults (s : SheetRound) :
    (s.courseType = none → (convertRound s).courseType = "regulation") ∧
    ((convertRound s).includeInHandicap = false ↔
      s.includeInHandicap = some "false") := by
  constructor
  · intro h
    simp [convertRound, h]
  · by_cases hf : s.includeInHandicap = some "false" <;> simp [convertRound, hf]

/-- Witness for C8 at a record with absent `courseType` and absent
`includeInHandicap`. -/
theorem convertRound_defaults_witness :
    (convertRound blankSheetRound).courseType = "regulation" :=
  (convertRound_defaults blankSheetRound).1 rfl

/-- C10: `loadRoundsFromSheet` silently coerces every missing or unparseable
numeric field to 0 (`parseInt(...) || 0`) — the decode is total and signals
no error — and such a round, when marked included, participates in the
handicap computation with differential 0. -/
theorem convertRound_coerces_to_zero (s : SheetRound) :
    (s.holes = none → (convertRound s).holes = 0) ∧
    (s.score = none → (convertRound s).score = 0) ∧
    (s.par = none → (convertRound s).par = 0) ∧
    (s.adjScore = none → (convertRound s).adjScore = 0) ∧
    (s.rating = none → (convertRound s).rating = 0) ∧
    (s.slope = none → (convertRound s).slope = 0) ∧
    (s.differential = none →
      (convertRound s).differential = 0 ∧
      ((convertRound s).includeInHandicap = true →
        calculateHandicap [convertRound s] false = some ⟨0, 1, 1⟩)) := by
  refine ⟨fun h => by simp [convertRound, h], fun h => by simp [convertRound, h],
    fun h => by simp [convertRound, h], fun h => by simp [convertRound, h],
    fun h => by simp [convertRound, h], fun h => by simp [convertRound, h],
    fun hd => ⟨by simp [convertRound, hd], fun hinc => ?_⟩⟩
  have hdiff : (convertRound s).differential = 0 := by simp [convertRound, hd]
  rw [calculateHandicap_eq]
  have he : eligibleRounds [convertRound s] false = [convertRound s] := by
    simp [eligibleRounds, hinc]
  simp [he, roundsToUse, hdiff]

/-- Witness for C10 at a record with every numeric field unparseable. -/
theorem convertRound_coerces_to_zero_witness :
    (convertRound blankSheetRound).holes = 0 ∧
    (convertRound blankSheetRound).differential = 0 ∧
    calculateHandicap [convertRound blankSheetRound] false = some ⟨0, 1, 1⟩ := by
  have h := convertRound_coerces_to_zero blankSheetRound
  have h7 := h.2.2.2.2.2.2 rfl
  exact ⟨h.1 rfl, h7.1, h7.2 (by decide)⟩

/-- `Math.floor(n * 0.4)` agrees with natural division by 10 after scaling. -/
lemma floor_forty_percent (n : ℕ) : ⌊(n : ℚ) * (4 / 10)⌋₊ = n * 4 / 10 := by
  have h : (n : ℚ) * (4 / 10) = ((n * 4 : ℕ) : ℚ) / ((10 : ℕ) : ℚ) := by
    push_cast; ring
  rw [h, Nat.floor_div_nat, Nat.floor_natCast]

/-- `Math.floor(n * 0.3)` agrees with natural division by 10 after scaling. -/
lemma floor_thirty_percent (n : ℕ) : ⌊(n : ℚ) * (3 / 10)⌋₊ = n * 3 / 10 := by
  have h : (n : ℚ) * (3 / 10) = ((n * 3 : ℕ) : ℚ) / ((10 : ℕ) : ℚ) := by
    push_cast; ring
  rw [h, Nat.floor_div_nat, Nat.floor_natCast]

/-- C2: whenever `calculateHandicap` produces a result from `n` eligible
rounds, `roundsUsed` follows the selection table: 8 for `n ≥ 20`,
`⌊n·0.4⌋` for `10 ≤ n < 20`, `⌊n·0.3⌋` for `5 ≤ n < 10`, `min 1 n`
for `n < 5`. -/
theorem calculateHandicap_roundsUsed_table (rounds : List Round) (ro : Bool)
    (res : HandicapResult) (h : calculateHandicap rounds ro = some res) :
    res.roundsUsed =
      if 20 ≤ res.totalHandicapRounds then 8
      else if 10 ≤ res.totalHandicapRounds then
        ⌊(res.totalHandicapRounds : ℚ) * (4 / 10)⌋₊
      else if 5 ≤ res.totalHandicapRounds then
        ⌊(res.totalHandicapRounds : ℚ) * (3 / 10)⌋₊
      else min 1 res.totalHandicapRounds := by
  rw [calculateHandicap_eq] at h
  by_cases h0 : rounds.length = 0
  · rw [if_pos h0] at h; cases h
  · rw [if_neg h0] at h
    by_cases he : (eligibleRounds rounds ro).length = 0
    · rw [if_pos he] at h; cases h
    · rw [if_neg he] at h
      have hr : res.roundsUsed = roundsToUse (eligibleRounds rounds ro).length ∧
          res.totalHandicapRounds = (eligibleRounds rounds ro).length := by
        cases h; exact ⟨rfl, rfl⟩
      rw [hr.1, hr.2]
      unfold roundsToUse
      rcases le_or_lt 20 (eligibleRounds rounds ro).length with h20 | h20
      · rw [if_pos h20, if_pos h20]
      · rw [if_neg (not_le.mpr h20), if_neg (not_le.mpr h20)]
        rcases le_or_lt 10 (eligibleRounds rounds ro).length with h10 | h10
        · rw [if_pos h10, if_pos h10, floor_forty_percent]
        · rw [if_neg (not_le.mpr h10), if_neg (not_le.mpr h10)]
          rcases le_or_lt 5 (eligibleRounds rounds ro).length with h5 | h5
          · rw [if_pos h5, if_pos h5, floor_thirty_percent]
          · rw [if_neg (not_le.mpr h5), if_neg (not_le.mpr h5)]

/-- Witness for C2: twelve eligible rounds use the best `⌊12·0.4⌋ = 4`. -/
theorem calculateHandicap_roundsUsed_table_witness :
    (⟨108 / 5, 4, 12⟩ : HandicapResult).roundsUsed =
      if 20 ≤ (⟨108 / 5, 4, 12⟩ : HandicapResult).totalHandicapRounds then 8
      else if 10 ≤ (⟨108 / 5, 4, 12⟩ : HandicapResult).totalHandicapRounds then
        ⌊((⟨108 / 5, 4, 12⟩ : HandicapResult).totalHandicapRounds : ℚ) * (4 / 10)⌋₊
      else if 5 ≤ (⟨108 / 5, 4, 12⟩ : HandicapResult).totalHandicapRounds then
        ⌊((⟨108 / 5, 4, 12⟩ : HandicapResult).totalHandicapRounds : ℚ) * (3 / 10)⌋₊
      else min 1 (⟨108 / 5, 4, 12⟩ : HandicapResult).totalHandicapRounds :=
  calculateHandicap_roundsUsed_table twelveRounds false ⟨108 / 5, 4, 12⟩ (by
    norm_num [calculateHandicap_eq, eligibleRounds, roundsToUse, twelveRounds,
      sampleRound, List.insertionSort, List.orderedInsert, diffLE])

/-- Mapping `differential` over the differential-sorted rounds gives the
sorted list of differentials. -/
lemma sortByDiff_map (l : List Round) :
    (l.insertionSort diffLE).map Round.differential =
      (l.map Round.differential).insertionSort (· ≤ ·) := by
  refine List.eq_of_perm_of_sorted (r := fun a b : ℚ => a ≤ b) ?_ ?_ ?_
  · exact ((List.perm_insertionSort diffLE l).map _).trans
      (List.perm_insertionSort _ _).symm
  · exact List.pairwise_map.mpr (List.sorted_insertionSort diffLE l)
  · exact List.sorted_insertionSort _ _

/-- The eligibility filter respects permutation of the round list. -/
lemma eligibleRounds_perm (rounds rounds' : List Round) (ro : Bool)
    (h : rounds.Perm rounds') :
    (eligibleRounds rounds ro).Perm (eligibleRounds rounds' ro) := by
  unfold eligibleRounds
  cases ro
  · simpa using h.filter _
  · simpa using (h.filter _).filter _

/-- `calculateHandicap` is invariant under permutation of its input list. -/
lemma calculateHandicap_perm (rounds rounds' : List Round) (ro : Bool)
    (hperm : rounds.Perm rounds') :
    calculateHandicap rounds ro = calculateHandicap rounds' ro := by
  have hep := eligibleRounds_perm rounds rounds' ro hperm
  have hmap : ((eligibleRounds rounds ro).map Round.differential).Perm
      ((eligibleRounds rounds' ro).map Round.differential) := hep.map _
  have hsorteq : ((eligibleRounds rounds ro).map Round.differential).insertionSort
        (· ≤ ·) =
      ((eligibleRounds rounds' ro).map Round.differential).insertionSort
        (· ≤ ·) :=
    List.eq_of_perm_of_sorted
      (((List.perm_insertionSort _ _).trans hmap).trans
        (List.perm_insertionSort _ _).symm)
      (List.sorted_insertionSort _ _) (List.sorted_insertionSort _ _)
  rw [calculateHandicap_eq, calculateHandicap_eq, hperm.length_eq, hep.length_eq]
  by_cases h0 : rounds'.length = 0
  · simp [h0]
  · rw [if_neg h0, if_neg h0]
    by_cases he : (eligibleRounds rounds' ro).length = 0
    · rw [if_pos he, if_pos he]
    · rw [if_neg he, if_neg he]
      have hsum :
          ((((eligibleRounds rounds ro).insertionSort diffLE).take
            (roundsToUse (eligibleRounds rounds' ro).length)).map
            Round.differential) =
          ((((eligibleRounds rounds' ro).insertionSort diffLE).take
            (roundsToUse (eligibleRounds rounds' ro).length)).map
            Round.differential) := by
        rw [List.map_take, List.map_take, sortByDiff_map, sortByDiff_map,
          hsorteq]
      rw [hsum]

/-- C3: a produced `handicap` is the mean of the `k = roundsUsed` lowest
eligible differentials times 0.96 (`take k` of the ascending-sorted
differential list), and the whole result is unchanged under any permutation
of the input round list. -/
theorem calculateHandicap_mean_best_perm (rounds rounds' : List Round)
    (ro : Bool) (res : HandicapResult) (hperm : rounds.Perm rounds')
    (h : calculateHandicap rounds ro = some res) :
    res.handicap =
      ((((eligibleRounds rounds ro).map Round.differential).insertionSort
          (· ≤ ·)).take (roundsToUse (eligibleRounds rounds ro).length)).sum /
        ((roundsToUse (eligibleRounds rounds ro).length : ℕ) : ℚ) *
        (96 / 100) ∧
    calculateHandicap rounds' ro = some res := by
  constructor
  · rw [calculateHandicap_eq] at h
    by_cases h0 : rounds.length = 0
    · rw [if_pos h0] at h; cases h
    · rw [if_neg h0] at h
      by_cases he : (eligibleRounds rounds ro).length = 0
      · rw [if_pos he] at h; cases h
      · rw [if_neg he] at h
        cases h
        rw [← sortByDiff_map, ← List.map_take]
  · rw [← calculateHandicap_perm rounds rounds' ro hperm]; exact h

/-- Witness for C3 on a two-round list and its swap: one round is used, the
lowest differential is 15, and the handicap is `15 * 0.96 = 14.4`. -/
theorem calculateHandicap_mean_best_perm_witness :
    (⟨72 / 5, 1, 2⟩ : HandicapResult).handicap =
      ((((eligibleRounds [roundA, roundB] false).map
            Round.differential).insertionSort (· ≤ ·)).take
          (roundsToUse (eligibleRounds [roundA, roundB] false).length)).sum /
        ((roundsToUse (eligibleRounds [roundA, roundB] false).length : ℕ) : ℚ) *
        (96 / 100) ∧
    calculateHandicap [roundB, roundA] false = some ⟨72 / 5, 1, 2⟩ :=
  calculateHandicap_mean_best_perm [roundA, roundB] [roundB, roundA] false
    ⟨72 / 5, 1, 2⟩ (List.Perm.swap roundB roundA [])
    (by norm_num [calculateHandicap_eq, eligibleRounds, roundsToUse, roundA,
      roundB, sampleRound, List.insertionSort, List.orderedInsert, diffLE])

/-- `trendSpec` with the `let`-bindings unfolded, for proofs. -/
lemma trendSpec_eq (rounds : List Round) :
    trendSpec rounds =
      if ((rounds.filter (fun r => r.includeInHandicap)).insertionSort
          dateGE).length ≥ 10 then
        some (((((rounds.filter (fun r => r.includeInHandicap)).insertionSort
              dateGE).take 5).map (fun r => (r.adjScore : ℚ))).sum / 5 -
          (((((rounds.filter (fun r => r.includeInHandicap)).insertionSort
              dateGE).drop 5).take 5).map (fun r => (r.adjScore : ℚ))).sum / 5)
      else none := rfl

/-- Counterexample to C5 as stated: with the global array stored
oldest-first (as `sortTable` can leave it), the code's trend (computed from
stored positions 0-4 vs 5-9) is `-5`, while the newest-first computation the
claim describes gives `+5`. -/
theorem computeStats_trend_newest_first_cex :
    ¬ ((computeStats risingRounds).trend = trendSpec risingRounds) := by
  norm_num [computeStats_eq, trendSpec_eq, risingRounds, sampleRound,
    List.insertionSort, List.orderedInsert, dateGE]

/-- C5 (amended): `updateAllCoursesStats` computes the trend from the
filtered rounds in the array's *stored* order — positions `[0..5)` against
`[5..10)` — which coincides with the claim's newest-first computation
whenever the stored list is ordered newest-first by date (the order
`loadRounds` and `addRound` maintain); with fewer than 10 filtered rounds
the trend is the unavailable sentinel. -/
theorem computeStats_trend_stored_order (rounds : List Round) :
    (List.Sorted dateGE rounds →
      (computeStats rounds).trend = trendSpec rounds) ∧
    ((computeStats rounds).total < 10 → (computeStats rounds).trend = none) := by
  constructor
  · intro hs
    have hf : List.Sorted dateGE
        (rounds.filter (fun r => r.includeInHandicap)) := hs.filter _
    rw [computeStats_eq, trendSpec_eq, hf.insertionSort_eq]
    by_cases h0 : (rounds.filter (fun r => r.includeInHandicap)).length > 0
    · rw [if_pos h0]
    · rw [if_neg h0]
      have h10 : ¬ ((rounds.filter (fun r => r.includeInHandicap)).length ≥ 10) := by
        omega
      rw [if_neg h10]
  · intro hlt
    rw [computeStats_eq] at hlt ⊢
    by_cases h0 : (rounds.filter (fun r => r.includeInHandicap)).length > 0
    · rw [if_pos h0] at hlt ⊢
      simp only at hlt
      have h10 : ¬ ((rounds.filter (fun r => r.includeInHandicap)).length ≥ 10) := by
        omega
      simp only [h10, if_false]
    · rw [if_neg h0]

/-- Witness for C5 (amended) on ten rounds stored newest-first. -/
theorem computeStats_trend_stored_order_witness :
    (computeStats fallingRounds).trend = trendSpec fallingRounds :=
  (computeStats_trend_stored_order fallingRounds).1 (by decide)

/-- Reading below the old length is unaffected by an allocation. -/
lemma readA_append_lt {h : Heap} {l : List Round} {r : ℕ} (hr : r < h.length) :
    readA (h ++ [l]) r = readA h r := by
  simp [readA, List.get?_eq_getElem?, List.getElem?_append_left hr]

/-- Reading a freshly allocated cell gives the allocated array. -/
lemma readA_concat_self (h : Heap) (l : List Round) :
    readA (h ++ [l]) h.length = l := by
  simp [readA, List.get?_eq_getElem?, List.getElem?_append_right]

/-- Writing one cell leaves every other cell unchanged. -/
lemma readA_set_ne {h : Heap} {r r' : ℕ} (hne : r' ≠ r) (l : List Round) :
    readA (h.set r' l) r = readA h r := by
  simp [readA, List.get?_eq_getElem?, List.getElem?_set_ne hne]

/-- Writing a valid cell stores the written array there. -/
lemma readA_set_self {h : Heap} {r : ℕ} (hr : r < h.length) (l : List Round) :
    readA (h.set r l) r = l := by
  simp [readA, List.get?_eq_getElem?, List.getElem?_set_self, hr]

/-- C9: `calculateHandicap` never mutates the global rounds array: the
filters allocate fresh arrays and the sort mutates only the spread copy
`[...handicapRounds]`, so the cell holding the input list — its order and
every round in it — is unchanged, and the returned value is the pure
function of the input snapshot. -/
theorem calculateHandicapRef_no_mutation (h : Heap) (ref : ℕ) (ro : Bool)
    (href : ref < h.length) :
    readA (calculateHandicapRef h ref ro).2 ref = readA h ref ∧
    (calculateHandicapRef h ref ro).1 = calculateHandicap (readA h ref) ro := by
  by_cases h0 : (readA h ref).length = 0
  · constructor
    · simp [calculateHandicapRef, h0]
    · rw [calculateHandicap_eq, if_pos h0]
      simp [calculateHandicapRef, h0]
  · cases ro
    · simp only [calculateHandicapRef, allocA, h0, if_false, Bool.false_eq_true,
        readA_concat_self]
      by_cases he : (List.filter (fun r => r.includeInHandicap) (readA h ref)).length = 0
      · rw [if_pos he]
        constructor
        · exact readA_append_lt href
        · rw [calculateHandicap_eq, if_neg h0]
          have : eligibleRounds (readA h ref) false =
              List.filter (fun r => r.includeInHandicap) (readA h ref) := rfl
          rw [this, if_pos he]
      · rw [if_neg he]
        constructor
        · rw [writeA, readA_set_ne (by simp; omega),
            readA_append_lt (by simp; omega), readA_append_lt href]
        · rw [writeA, readA_set_self (by simp) _]
          rw [calculateHandicap_eq, if_neg h0]
          have : eligibleRounds (readA h ref) false =
              List.filter (fun r => r.includeInHandicap) (readA h ref) := rfl
          rw [this, if_neg he]
    · simp only [calculateHandicapRef, allocA, h0, if_false, if_true,
        readA_concat_self]
      by_cases he : ((List.filter (fun r => r.includeInHandicap)
          (readA h ref)).filter (fun r => r.courseType = "regulation")).length = 0
      · rw [if_pos he]
        constructor
        · rw [readA_append_lt (by simp; omega), readA_append_lt href]
        · rw [calculateHandicap_eq, if_neg h0]
          have : eligibleRounds (readA h ref) true =
              (List.filter (fun r => r.includeInHandicap)
                (readA h ref)).filter (fun r => r.courseType = "regulation") := rfl
          rw [this, if_pos he]
      · rw [if_neg he]
        constructor
        · rw [writeA, readA_set_ne (by simp; omega),
            readA_append_lt (by simp; omega), readA_append_lt (by simp; omega),
            readA_append_lt href]
        · rw [writeA, readA_set_self (by simp) _]
          rw [calculateHandicap_eq, if_neg h0]
          have : eligibleRounds (readA h ref) true =
              (List.filter (fun r => r.includeInHandicap)
                (readA h ref)).filter (fun r => r.courseType = "regulation") := rfl
          rw [this, if_neg he]

/-- Witness for C9 on a one-cell heap holding a single round. -/
theorem calculateHandicapRef_no_mutation_witness :
    readA (calculateHandicapRef [[roundA]] 0 false).2 0 = readA [[roundA]] 0 ∧
    (calculateHandicapRef [[roundA]] 0 false).1 =
      calculateHandicap (readA [[roundA]] 0) false :=
  calculateHandicapRef_no_mutation [[roundA]] 0 false (by decide)
